import Mathlib

/-!
Verification development for the async HTTP GraphQL view
(`strawberry/http/async_base_view.py`).

The development shallowly embeds the request-protocol dispatcher
(`parse_http_body`, `execute_operation`, `run`), the multipart frame
encoder (`encode_multipart_data`, `_get_stream`) and the subscription
stream multiplexer (`_stream_with_heartbeat`) as executable Lean
definitions, and proves the specified properties about them.

Helper functions of the repository that live outside the shown source
file (`BaseView.parse_json`, `BaseView.parse_query_params`,
`OperationType.from_http`, `parse_content_type`,
`replace_placeholders_with_files`, the execution engine) are either
taken as explicit parameters or modelled from the specification; each
such definition carries a doc comment saying so.
-/

namespace StrawberryHTTP

/-- HTTP methods relevant to the view (`HTTPMethod` in `.types`). -/
inductive HTTPMethod where
  | GET
  | POST
  | DELETE
  deriving DecidableEq, Repr

/-- Operation kinds (`strawberry.types.graphql.OperationType`). -/
inductive OperationType where
  | query
  | mutation
  | subscription
  deriving DecidableEq, Repr

mutual
/-- JSON-like values, as produced by JSON decoding of request bodies and
form fields.  The extra `file` constructor stands for an opaque uploaded
file handle substituted into the variables by the multipart upload path. -/
inductive Json where
  | null
  | jbool (b : Bool)
  | num (n : Int)
  | str (s : String)
  | file (h : Nat)
  | arr (xs : JsonList)
  | obj (fs : JsonFields)

/-- Lists of JSON values (elements of a JSON array). -/
inductive JsonList where
  | nil
  | cons (hd : Json) (tl : JsonList)

/-- Association lists of JSON object fields. -/
inductive JsonFields where
  | nil
  | cons (key : String) (val : Json) (tl : JsonFields)
end

/-- Convert a JSON object's fields into a plain association list;
non-objects give the empty dictionary.  This models using a decoded
JSON value as the Python `data` dict in `parse_http_body`. -/
def jfieldsList : JsonFields → List (String × Json)
  | .nil => []
  | .cons k v tl => (k, v) :: jfieldsList tl

/-- Fields of a decoded body, viewed as a dictionary (`data` in
`parse_http_body`); `data.get(key)` is `List.lookup` on this list. -/
def jfields : Json → List (String × Json)
  | .obj fs => jfieldsList fs
  | _ => []

/-- Protocol detected by `parse_http_body` (the `protocol` literal). -/
inductive Protocol where
  | http
  | multipartSubscription
  deriving DecidableEq, Repr

/-- Canonical request data (`strawberry.http.GraphQLRequestData`), as
constructed at the end of `parse_http_body`. -/
structure GraphQLRequestData where
  query : Option Json
  variables_ : Option Json
  operation_name : Option Json
  protocol : Protocol

/-- Multipart form data returned by the request adapter's
`get_form_data` (`FormData` in `.types`): the text form fields and the
uploaded files, the latter modelled as opaque numeric handles. -/
structure FormData where
  form : List (String × String)
  files : List (String × Nat)

/-- The request adapter (`AsyncHTTPRequestAdapter`): method, content
type, query parameters, raw body and form data of one inbound request.
`form_data` is `Except.error ()` when `get_form_data` raises
`ValueError`. -/
structure RequestAdapter where
  method : HTTPMethod
  content_type : Option String
  query_params : List (String × String)
  body : String
  form_data : Except Unit FormData

/-- View configuration and its inherited helpers: the
`allow_queries_via_get` property, `BaseView.parse_json` (JSON decoding,
`Except.error ()` models `json.decoder.JSONDecodeError`) and
`BaseView._is_multipart_subscriptions` (the subscription content-type
marker test), the last two being repository code outside the shown
source file and therefore kept as explicit parameters. -/
structure ViewModel where
  allow_queries_via_get : Bool
  parseJson : String → Except Unit Json
  isMultipartSubscriptions : String → List String → Bool

/-- Split a character list at every occurrence of a separator
character. -/
def splitChar (sep : Char) : List Char → List (List Char)
  | [] => [[]]
  | c :: t =>
      let r := splitChar sep t
      if c = sep then [] :: r
      else
        match r with
        | [] => [[c]]
        | h :: hs => (c :: h) :: hs

/-- Strip leading and trailing spaces from a character list. -/
def trimChars (l : List Char) : List Char :=
  ((l.dropWhile (fun c => c = ' ')).reverse.dropWhile (fun c => c = ' ')).reverse

/-- Modelled from the spec: `parse_content_type` (in
`.parse_content_type`, not among the sources) parses a content-type
header into a mime type and its parameters (spec section 4.1:
content-type parsed into `(mime, params)`): the header is split on
semicolons and each piece is trimmed. -/
def parse_content_type (s : String) : String × List String :=
  match (splitChar ';' s.data).map (fun cs => String.mk (trimChars cs)) with
  | [] => ("", [])
  | m :: ps => (m, ps)

/-- Modelled from the spec: `BaseView.parse_query_params` (not among
the sources) reads the GraphQL request keys from the query string (spec
section 4.1: parse query-string keys `query`, `variables`,
`operationName`). -/
def parse_query_params (qp : List (String × String)) : List (String × Json) :=
  qp.map (fun p => (p.1, Json.str p.2))

/-- Whether one character list begins with another. -/
def listBeginsWith : List Char → List Char → Bool
  | [], _ => true
  | _ :: _, [] => false
  | a :: as, b :: bs => a = b && listBeginsWith as bs

/-- Whether a character list occurs somewhere inside another. -/
def containsSub (n : List Char) : List Char → Bool
  | [] => listBeginsWith n []
  | l@(_ :: t) => listBeginsWith n l || containsSub n t

/-- Substring test on strings; models Python's `in` on `str`. -/
def strContainsSub (n s : String) : Bool :=
  containsSub n.data s.data

/-- Errors escaping `parse_http_body`: a JSON decoding failure
(`json.decoder.JSONDecodeError`), a `KeyError`, or an `HTTPException`
raised directly with a status code and message. -/
inductive ParseErr where
  | jsonDecode
  | keyErr
  | httpExc (code : Nat) (msg : String)
  deriving DecidableEq, Repr

/-- Update the first occurrence of a key in a JSON object's fields;
`none` when the key is absent (Python `KeyError` on indexing). -/
def updateFields : JsonFields → String → Json → Option JsonFields
  | .nil, _, _ => none
  | .cons k v tl, key, newVal =>
      if k = key then some (.cons k newVal tl)
      else
        match updateFields tl key newVal with
        | some tl' => some (.cons k v tl')
        | none => none

/-- Set the value at a dotted path inside nested JSON objects; `none`
when the path traverses a missing key or a non-object. -/
def setPath : Json → List String → Json → Option Json
  | _, [], v => some v
  | .obj fs, k :: rest, v =>
      match lookupField fs k with
      | none => none
      | some inner =>
          match setPath inner rest v with
          | none => none
          | some inner' =>
              match updateFields fs k inner' with
              | some fs' => some (.obj fs')
              | none => none
  | _, _ :: _, _ => none
where
  /-- Look up a key among JSON object fields. -/
  lookupField : JsonFields → String → Option Json
    | .nil, _ => none
    | .cons k v tl, key => if k = key then some v else lookupField tl key

/-- Collect the string elements of a JSON array (the list of dotted
paths mapped to one uploaded file in the `map` form field). -/
def pathsOf : Json → List String :=
  fun j =>
    match j with
    | .arr l => strsOf l
    | _ => []
where
  /-- String elements of a JSON list. -/
  strsOf : JsonList → List String
    | .nil => []
    | .cons (.str s) tl => s :: strsOf tl
    | .cons _ tl => strsOf tl

/-- Substitute the file handle at every dotted path of one `map` entry. -/
def applyPaths (ops : Json) (paths : List String) (h : Nat) : Except Unit Json :=
  match paths with
  | [] => .ok ops
  | p :: rest =>
      match setPath ops ((splitChar '.' p.data).map String.mk) (.file h) with
      | none => .error ()
      | some ops' => applyPaths ops' rest h

/-- Modelled from the spec:
`strawberry.file_uploads.utils.replace_placeholders_with_files` is not
among the sources.  Per spec section 4.1 it substitutes the file
placeholders named by the `map` field with the uploaded file handles
from the form's file set; a referenced file key absent from the file
set is a missing-upload error (`KeyError`, here `Except.error ()`), as
is an unresolvable placeholder path. -/
def replace_placeholders_with_files
    (ops : Json) (filesMap : Json) (files : List (String × Nat)) :
    Except Unit Json :=
  match filesMap with
  | .obj entries => replaceEntries ops entries files
  | _ => .ok ops
where
  /-- Process the `map` entries in order. -/
  replaceEntries (ops : Json) : JsonFields → List (String × Nat) → Except Unit Json
    | .nil, _ => .ok ops
    | .cons k v tl, files =>
        match files.lookup k with
        | none => .error ()
        | some h =>
            match applyPaths ops (pathsOf v) h with
            | .error e => .error e
            | .ok ops' => replaceEntries ops' tl files

/-- `AsyncBaseHTTPView.parse_multipart`: fetch the form data (a
`ValueError` becomes HTTP 400 "Unable to parse the multipart body"),
decode the `operations` and `map` fields — defaulting each to `"{}"`
when absent — and substitute uploaded files, converting a `KeyError`
into HTTP 400 "File(s) missing in form data".  JSON decoding failures
propagate to the caller. -/
def parse_multipart (vm : ViewModel) (req : RequestAdapter) :
    Except ParseErr Json :=
  match req.form_data with
  | .error _ => .error (.httpExc 400 "Unable to parse the multipart body")
  | .ok form_data =>
      let opsStr := (form_data.form.lookup "operations").getD "\x7b\x7d"
      let mapStr := (form_data.form.lookup "map").getD "\x7b\x7d"
      match vm.parseJson opsStr with
      | .error _ => .error .jsonDecode
      | .ok ops =>
          match vm.parseJson mapStr with
          | .error _ => .error .jsonDecode
          | .ok filesMap =>
              match replace_placeholders_with_files ops filesMap form_data.files with
              | .error _ => .error (.httpExc 400 "File(s) missing in form data")
              | .ok replaced => .ok replaced

/-- `AsyncBaseHTTPView.parse_multipart_subscriptions`: query parameters
on GET, JSON body otherwise. -/
def parse_multipart_subscriptions (vm : ViewModel) (req : RequestAdapter) :
    Except ParseErr (List (String × Json)) :=
  if req.method = .GET then .ok (parse_query_params req.query_params)
  else
    match vm.parseJson req.body with
    | .error _ => .error .jsonDecode
    | .ok j => .ok (jfields j)

/-- Build the `GraphQLRequestData` returned by `parse_http_body` from
the decoded `data` dictionary. -/
def mkRequestData (data : List (String × Json)) (protocol : Protocol) :
    GraphQLRequestData :=
  { query := data.lookup "query"
    variables_ := data.lookup "variables"
    operation_name := data.lookup "operationName"
    protocol := protocol }

/-- `AsyncBaseHTTPView.parse_http_body`: the content-type and method
driven selection among the query-string, JSON-body, multipart-form and
multipart-subscription parse strategies, raising HTTP 400 "Unsupported
content type" when nothing matches. -/
def parse_http_body (vm : ViewModel) (req : RequestAdapter) :
    Except ParseErr GraphQLRequestData :=
  let ct := parse_content_type (req.content_type.getD "")
  if req.method = .GET then
    let data := parse_query_params req.query_params
    let protocol :=
      if vm.isMultipartSubscriptions ct.1 ct.2 then
        Protocol.multipartSubscription
      else Protocol.http
    .ok (mkRequestData data protocol)
  else if strContainsSub "application/json" ct.1 then
    match vm.parseJson req.body with
    | .error _ => .error .jsonDecode
    | .ok j => .ok (mkRequestData (jfields j) .http)
  else if ct.1 = "multipart/form-data" then
    match parse_multipart vm req with
    | .error e => .error e
    | .ok j => .ok (mkRequestData (jfields j) .http)
  else if vm.isMultipartSubscriptions ct.1 ct.2 then
    match parse_multipart_subscriptions vm req with
    | .error e => .error e
    | .ok data => .ok (mkRequestData data .multipartSubscription)
  else .error (.httpExc 400 "Unsupported content type")

/-- Errors escaping `execute_operation`: an `HTTPException` raised
during parsing, the engine's `InvalidOperationTypeError`, or the
engine's `MissingQueryError`. -/
inductive OpError where
  | httpExc (code : Nat) (msg : String)
  | invalidOpType (k : OperationType)
  | missingQuery
  deriving DecidableEq, Repr

/-- Outcome of a successful dispatch: a single execution result or a
subscription result sequence (`SubscriptionExecutionResult`). -/
inductive Outcome where
  | single
  | subscriptionOutcome
  deriving DecidableEq, Repr

/-- Modelled from the spec: `OperationType.from_http` (not among the
sources) maps the HTTP method to the allowed operation kinds (spec
section 3: GET gives `{query}`, POST gives
`{query, mutation, subscription}`). -/
def OperationType.from_http : HTTPMethod → List OperationType
  | .GET => [.query]
  | .POST => [.query, .mutation, .subscription]
  | _ => []

/-- The allowed operation kinds computed in `execute_operation`
(lines 118-121): `OperationType.from_http` minus `{query}` when the
method is GET and `allow_queries_via_get` is false. -/
def allowedOperationTypes (method : HTTPMethod) (allow_queries_via_get : Bool) :
    List OperationType :=
  let fromHttp := OperationType.from_http method
  if ¬ allow_queries_via_get ∧ method = .GET then
    fromHttp.filter (fun k => k ≠ .query)
  else fromHttp

/-- Modelled from the spec: the execution engine's `execute` is
external (spec sections 4.3 and 6).  It rejects with `MissingQuery`
when the query is null or absent, and with `InvalidOperationType` when
the parsed operation's kind — supplied here as the `opKind` argument —
is not among the allowed kinds; otherwise it produces a single result. -/
def schemaExecute (query : Option Json) (opKind : OperationType)
    (allowed : List OperationType) : Except OpError Outcome :=
  if query.isNone then .error .missingQuery
  else if ¬ allowed.contains opKind then .error (.invalidOpType opKind)
  else .ok .single

/-- Modelled from the spec: the execution engine's `subscribe` is
external (spec sections 4.3 and 6).  The source calls it without the
`allowed_operation_types` argument (lines 126-132), so no operation
kind gate can apply on that path; it yields a subscription result
sequence. -/
def schemaSubscribe (_query : Option Json) : Except OpError Outcome :=
  .ok .subscriptionOutcome

/-- `AsyncBaseHTTPView.execute_operation`: parse the body (converting a
JSON decode failure and a `KeyError` to their HTTP 400 exceptions),
compute the allowed operation kinds, then dispatch to `subscribe` for
the multipart-subscription protocol and to `execute` otherwise.
`opKind` is the operation kind the engine parses out of the query. -/
def execute_operation (vm : ViewModel) (req : RequestAdapter)
    (opKind : OperationType) : Except OpError Outcome :=
  match parse_http_body vm req with
  | .error .jsonDecode =>
      .error (.httpExc 400 "Unable to parse request body as JSON")
  | .error .keyErr =>
      .error (.httpExc 400 "File(s) missing in form data")
  | .error (.httpExc c m) => .error (.httpExc c m)
  | .ok request_data =>
      let allowed := allowedOperationTypes req.method vm.allow_queries_via_get
      if request_data.protocol = .multipartSubscription then
        schemaSubscribe request_data.query
      else
        schemaExecute request_data.query opKind allowed

/-- Modelled from the spec:
`InvalidOperationTypeError.as_http_error_reason` (not among the
sources) renders the invalid-operation-type rejection reason for the
HTTP 400 response. -/
def invalid_operation_reason (k : OperationType) (m : HTTPMethod) : String :=
  (match k with
    | .query => "queries"
    | .mutation => "mutations"
    | .subscription => "subscriptions")
    ++ " are not allowed when using "
    ++ (match m with | .GET => "GET" | .POST => "POST" | .DELETE => "DELETE")

/-- Successful results of `run`: a plain JSON response
(`create_response`) or a chunked streaming response
(`create_streaming_response`). -/
inductive RunOk where
  | jsonResponse
  | streamingResponse
  deriving DecidableEq, Repr

/-- `AsyncBaseHTTPView.run`: reject non-GET/POST methods with 405
(`is_request_allowed`, modelled from the spec since `BaseView` is not
among the sources), call `execute_operation`, convert
`InvalidOperationTypeError` and `MissingQueryError` to their HTTP 400
responses, and build a streaming response for subscription results and
a JSON response otherwise.  The GraphQL IDE branch is external
rendering and is not modelled. -/
def run (vm : ViewModel) (req : RequestAdapter) (opKind : OperationType) :
    Except (Nat × String) RunOk :=
  if ¬ (req.method = .GET ∨ req.method = .POST) then
    .error (405, "GraphQL only supports GET and POST requests.")
  else
    match execute_operation vm req opKind with
    | .error (.invalidOpType k) =>
        .error (400, invalid_operation_reason k req.method)
    | .error .missingQuery =>
        .error (400, "No GraphQL query found in the request")
    | .error (.httpExc c m) => .error (c, m)
    | .ok .subscriptionOutcome => .ok .streamingResponse
    | .ok .single => .ok .jsonResponse


/-! ### Strategy selection (claim C6 support) -/

/-- The four parse strategies of `parse_http_body`. -/
inductive Strategy where
  | queryParams
  | jsonBody
  | multipartForm
  | multipartSub
  deriving DecidableEq, Repr

/-- The strategy `parse_http_body` selects, as a function of the HTTP
method and the content-type header alone (given the view's
subscription-marker test). -/
def chooseStrategy (vm : ViewModel) (method : HTTPMethod)
    (content_type : Option String) : Option Strategy :=
  let ct := parse_content_type (content_type.getD "")
  if method = .GET then some .queryParams
  else if strContainsSub "application/json" ct.1 then some .jsonBody
  else if ct.1 = "multipart/form-data" then some .multipartForm
  else if vm.isMultipartSubscriptions ct.1 ct.2 then some .multipartSub
  else none

/-- Run a single parse strategy on a request; `none` is the
unsupported-content-type rejection. -/
def parseByStrategy (vm : ViewModel) (req : RequestAdapter) :
    Option Strategy → Except ParseErr GraphQLRequestData
  | some .queryParams =>
      let ct := parse_content_type (req.content_type.getD "")
      let data := parse_query_params req.query_params
      let protocol :=
        if vm.isMultipartSubscriptions ct.1 ct.2 then
          Protocol.multipartSubscription
        else Protocol.http
      .ok (mkRequestData data protocol)
  | some .jsonBody =>
      match vm.parseJson req.body with
      | .error _ => .error .jsonDecode
      | .ok j => .ok (mkRequestData (jfields j) .http)
  | some .multipartForm =>
      match parse_multipart vm req with
      | .error e => .error e
      | .ok j => .ok (mkRequestData (jfields j) .http)
  | some .multipartSub =>
      match parse_multipart_subscriptions vm req with
      | .error e => .error e
      | .ok data => .ok (mkRequestData data .multipartSubscription)
  | none => .error (.httpExc 400 "Unsupported content type")

/-- C6: exactly one strategy is selected per request, determined solely
by method and content-type; a POST matching none of the recognized
strategies fails with the unsupported-content-type HTTP 400; a GET is
always parsed from the query parameters and never raises that error. -/
theorem parse_selects_exactly_one_strategy (vm : ViewModel) (req : RequestAdapter) :
    parse_http_body vm req
        = parseByStrategy vm req (chooseStrategy vm req.method req.content_type)
    ∧ (req.method = .POST →
        chooseStrategy vm req.method req.content_type = none →
        parse_http_body vm req = .error (.httpExc 400 "Unsupported content type"))
    ∧ (req.method = .GET →
        chooseStrategy vm req.method req.content_type = some .queryParams
        ∧ ∃ rd, parse_http_body vm req = .ok rd) := by
  have key : parse_http_body vm req
      = parseByStrategy vm req (chooseStrategy vm req.method req.content_type) := by
    by_cases hg : req.method = .GET
    · simp [parse_http_body, chooseStrategy, parseByStrategy, hg]
    · by_cases hj :
          strContainsSub "application/json"
            (parse_content_type (req.content_type.getD "")).1
      · simp [parse_http_body, chooseStrategy, parseByStrategy, hg, hj]
      · by_cases hf :
            (parse_content_type (req.content_type.getD "")).1 = "multipart/form-data"
        · simp [parse_http_body, chooseStrategy, parseByStrategy, hg, hj, hf,
            show strContainsSub "application/json" "multipart/form-data" = false from by decide]
        · by_cases hms :
              vm.isMultipartSubscriptions
                (parse_content_type (req.content_type.getD "")).1
                (parse_content_type (req.content_type.getD "")).2
          · simp [parse_http_body, chooseStrategy, parseByStrategy, hg, hj, hf, hms]
          · simp [parse_http_body, chooseStrategy, parseByStrategy, hg, hj, hf, hms]
  refine ⟨key, ?_, ?_⟩
  · intro _ hnone
    rw [key, hnone]
    rfl
  · intro hget
    have hchoice : chooseStrategy vm req.method req.content_type = some .queryParams := by
      simp [chooseStrategy, hget]
    refine ⟨hchoice, ?_⟩
    rw [key, hchoice]
    exact ⟨_, rfl⟩

/-! ### JSON POST bodies (claim C7) -/

/-- C7: for every valid JSON POST body decoding to an object that
contains a `query` field, the canonical request's query, variables and
operationName equal the body's fields (absent fields defaulting to
null), and the protocol is http. -/
theorem json_post_canonical_request (vm : ViewModel) (req : RequestAdapter)
    (fs : JsonFields) (q : Json)
    (hm : req.method = .POST)
    (hct : req.content_type = some "application/json")
    (hpj : vm.parseJson req.body = .ok (.obj fs))
    (hq : (jfieldsList fs).lookup "query" = some q) :
    parse_http_body vm req =
      .ok { query := some q
            variables_ := (jfieldsList fs).lookup "variables"
            operation_name := (jfieldsList fs).lookup "operationName"
            protocol := .http } := by
  have hctp : parse_content_type "application/json" = ("application/json", []) := by
    decide
  simp [parse_http_body, hm, hct, hctp, hpj,
    show strContainsSub "application/json" "application/json" = true from by decide,
    mkRequestData, jfields, hq]

/-! ### Multipart forms with absent fields (claim C10) -/

/-- C10: a multipart/form-data POST whose `operations` and `map` form
fields are absent parses successfully with both fields defaulting to
the empty JSON object, yielding a canonical request with a null query;
the request is only rejected later at dispatch with the HTTP 400
missing-query error. -/
theorem multipart_absent_fields_default (vm : ViewModel) (req : RequestAdapter)
    (form : List (String × String)) (files : List (String × Nat))
    (k : OperationType)
    (hm : req.method = .POST)
    (hct : req.content_type = some "multipart/form-data")
    (hfd : req.form_data = .ok { form := form, files := files })
    (hop : form.lookup "operations" = none)
    (hmap : form.lookup "map" = none)
    (hpj : vm.parseJson "\x7b\x7d" = .ok (.obj .nil)) :
    parse_http_body vm req =
      .ok { query := none, variables_ := none, operation_name := none,
            protocol := .http }
    ∧ run vm req k = .error (400, "No GraphQL query found in the request") := by
  have hctp : parse_content_type "multipart/form-data" = ("multipart/form-data", []) := by
    decide
  have hparse : parse_http_body vm req =
      .ok { query := none, variables_ := none, operation_name := none,
            protocol := .http } := by
    simp [parse_http_body, hm, hct, hctp,
      show strContainsSub "application/json" "multipart/form-data" = false from by decide,
      parse_multipart, hfd, hop, hmap, hpj,
      replace_placeholders_with_files, replace_placeholders_with_files.replaceEntries,
      mkRequestData, jfields, jfieldsList]
  refine ⟨hparse, ?_⟩
  simp [run, hm, execute_operation, hparse, schemaExecute]

/-! ### Multipart file upload scenario (claim C8) -/

/-- The `operations` form field text of the upload scenario. -/
def uploadOpsText : String :=
  "\x7b\"query\":\"\x7b upload(file: $f) \x7d\",\"variables\":\x7b\"f\":null\x7d\x7d"

/-- The `map` form field text of the upload scenario. -/
def uploadMapText : String :=
  "\x7b\"f\":[\"variables.f\"]\x7d"

/-- The decoded `operations` value of the upload scenario. -/
def uploadOpsJson : Json :=
  .obj (.cons "query" (.str "\x7b upload(file: $f) \x7d")
    (.cons "variables" (.obj (.cons "f" .null .nil)) .nil))

/-- The decoded `map` value of the upload scenario. -/
def uploadMapJson : Json :=
  .obj (.cons "f" (.arr (.cons (.str "variables.f") .nil)) .nil)

/-- C8: for the multipart upload scenario, when a file named `f` is
among the uploaded files the canonical request's `variables.f` is the
uploaded file handle; when it is absent, parsing fails with the HTTP
400 missing-upload error, which `run` surfaces as a 400 response. -/
theorem multipart_upload_scenario (vm : ViewModel)
    (reqA reqB : RequestAdapter) (k : OperationType)
    (hpo : vm.parseJson uploadOpsText = .ok uploadOpsJson)
    (hpm : vm.parseJson uploadMapText = .ok uploadMapJson)
    (hmA : reqA.method = .POST)
    (hctA : reqA.content_type = some "multipart/form-data")
    (hfdA : reqA.form_data =
      .ok { form := [("operations", uploadOpsText), ("map", uploadMapText)],
            files := [("f", 7)] })
    (hmB : reqB.method = .POST)
    (hctB : reqB.content_type = some "multipart/form-data")
    (hfdB : reqB.form_data =
      .ok { form := [("operations", uploadOpsText), ("map", uploadMapText)],
            files := [] }) :
    parse_http_body vm reqA =
      .ok { query := some (.str "\x7b upload(file: $f) \x7d")
            variables_ := some (.obj (.cons "f" (.file 7) .nil))
            operation_name := none
            protocol := .http }
    ∧ parse_http_body vm reqB = .error (.httpExc 400 "File(s) missing in form data")
    ∧ run vm reqB k = .error (400, "File(s) missing in form data") := by
  have hctp : parse_content_type "multipart/form-data" = ("multipart/form-data", []) :=
    rfl
  have hrepl : replace_placeholders_with_files uploadOpsJson uploadMapJson [("f", 7)] =
      .ok (.obj (.cons "query" (.str "\x7b upload(file: $f) \x7d")
        (.cons "variables" (.obj (.cons "f" (.file 7) .nil)) .nil))) := rfl
  have hreplB : replace_placeholders_with_files uploadOpsJson uploadMapJson [] =
      .error () := rfl
  have hmpA : parse_multipart vm reqA =
      .ok (.obj (.cons "query" (.str "\x7b upload(file: $f) \x7d")
        (.cons "variables" (.obj (.cons "f" (.file 7) .nil)) .nil))) := by
    unfold parse_multipart
    rw [hfdA]
    simp only [List.lookup, show (("operations" == "operations") = true) from rfl,
      show (("map" == "operations") = false) from rfl,
      show (("map" == "map") = true) from rfl, Option.getD_some]
    rw [hpo, hpm]
    simp [hrepl]
  have hmpB : parse_multipart vm reqB =
      .error (.httpExc 400 "File(s) missing in form data") := by
    unfold parse_multipart
    rw [hfdB]
    simp only [List.lookup, show (("operations" == "operations") = true) from rfl,
      show (("map" == "operations") = false) from rfl,
      show (("map" == "map") = true) from rfl, Option.getD_some]
    rw [hpo, hpm]
    simp [hreplB]
  have hA : parse_http_body vm reqA =
      .ok { query := some (.str "\x7b upload(file: $f) \x7d")
            variables_ := some (.obj (.cons "f" (.file 7) .nil))
            operation_name := none
            protocol := .http } := by
    simp [parse_http_body, hmA, hctA, hctp,
      show strContainsSub "application/json" "multipart/form-data" = false from by decide,
      hmpA, mkRequestData, jfields, jfieldsList]
    rfl
  have hB : parse_http_body vm reqB =
      .error (.httpExc 400 "File(s) missing in form data") := by
    simp [parse_http_body, hmB, hctB, hctp,
      show strContainsSub "application/json" "multipart/form-data" = false from by decide,
      hmpB]
  refine ⟨hA, hB, ?_⟩
  simp [run, hmB, execute_operation, hB]

/-! ### Operation kind gate (claim C2) -/

/-- A view with queries-via-GET disabled, used as the gate
counterexample configuration. -/
def gateVM : ViewModel :=
  { allow_queries_via_get := false
    parseJson := fun _ => .error ()
    isMultipartSubscriptions := fun m _ => m = "multipart/mixed" }

/-- A GET request carrying the multipart-subscription content-type
marker. -/
def gateReq : RequestAdapter :=
  { method := .GET
    content_type := some "multipart/mixed;subscriptionSpec=1.0"
    query_params := [("query", "query \x7b x \x7d")]
    body := ""
    form_data := .error () }

/-- C2 counterexample: a GET request whose content type carries the
multipart-subscription marker, with `allow_queries_via_get = false` and
a parsed operation kind of `query`, is dispatched to `subscribe`
(yielding a streaming response) even though `query` is not in the
allowed set, instead of being rejected with the invalid-operation-type
HTTP 400. -/
theorem gate_counterexample :
    ¬ (allowedOperationTypes .GET false).contains .query
    ∧ run gateVM gateReq .query = .ok .streamingResponse
    ∧ run gateVM gateReq .query ≠
        .error (400, invalid_operation_reason .query .GET) := by
  have hrun : run gateVM gateReq .query = .ok .streamingResponse := rfl
  refine ⟨by decide, hrun, ?_⟩
  rw [hrun]
  intro h
  exact Except.noConfusion h

/-- C2 amended: the operation kind gate applies to the http-protocol
dispatch path.  POST allows all three kinds; GET allows only `query`
and only when `allow_queries_via_get` is true; and whenever the
detected protocol is http and the parsed operation's kind is not in the
allowed set, the request is rejected with the invalid-operation-type
HTTP 400 — multipart-subscription requests instead dispatch to
`subscribe` without the gate. -/
theorem gate_enforced_on_http_path (vm : ViewModel) (req : RequestAdapter)
    (k : OperationType) (rd : GraphQLRequestData)
    (hmeth : req.method = .GET ∨ req.method = .POST)
    (hok : parse_http_body vm req = .ok rd)
    (hproto : rd.protocol = .http)
    (hq : rd.query.isSome)
    (hk : ¬ (allowedOperationTypes req.method vm.allow_queries_via_get).contains k) :
    run vm req k = .error (400, invalid_operation_reason k req.method)
    ∧ allowedOperationTypes .POST vm.allow_queries_via_get
        = [.query, .mutation, .subscription]
    ∧ allowedOperationTypes .GET true = [.query]
    ∧ allowedOperationTypes .GET false = [] := by
  obtain ⟨q, hqe⟩ := Option.isSome_iff_exists.mp hq
  have hmeth' : ¬ ¬ (req.method = .GET ∨ req.method = .POST) := not_not_intro hmeth
  refine ⟨?_, ?_, by decide, by decide⟩
  · have hk' : k ∉ allowedOperationTypes req.method vm.allow_queries_via_get := by
      simpa using hk
    simp only [run, hmeth', if_false, execute_operation, hok, hproto, schemaExecute]
    simp [hqe, hk']
  · unfold allowedOperationTypes OperationType.from_http
    simp

/-! ### Witness configurations for the parsing and dispatch claims -/

/-- A concrete JSON parser covering the strings used by the witnesses. -/
def witnessParse (s : String) : Except Unit Json :=
  if s = "\x7b\x7d" then .ok (.obj .nil)
  else if s = uploadOpsText then .ok uploadOpsJson
  else if s = uploadMapText then .ok uploadMapJson
  else if s = "\x7b\"query\":\"\x7b hello \x7d\"\x7d" then
    .ok (.obj (.cons "query" (.str "\x7b hello \x7d") .nil))
  else .error ()

/-- A concrete view configuration for the witnesses. -/
def witnessVM : ViewModel :=
  { allow_queries_via_get := true
    parseJson := witnessParse
    isMultipartSubscriptions := fun _ _ => false }

/-- A JSON POST request used by the C7 witness. -/
def jsonPostReq : RequestAdapter :=
  { method := .POST
    content_type := some "application/json"
    query_params := []
    body := "\x7b\"query\":\"\x7b hello \x7d\"\x7d"
    form_data := .error () }

/-- Witness for C7 at a concrete JSON POST request. -/
theorem json_post_canonical_request_witness :
    parse_http_body witnessVM jsonPostReq =
      .ok { query := some (.str "\x7b hello \x7d"), variables_ := none,
            operation_name := none, protocol := .http } :=
  json_post_canonical_request witnessVM jsonPostReq
    (.cons "query" (.str "\x7b hello \x7d") .nil) (.str "\x7b hello \x7d")
    rfl rfl rfl rfl

/-- A multipart POST request with neither `operations` nor `map`,
used by the C10 witness. -/
def emptyMultipartReq : RequestAdapter :=
  { method := .POST
    content_type := some "multipart/form-data"
    query_params := []
    body := ""
    form_data := .ok { form := [("other", "x")], files := [] } }

/-- Witness for C10 at a concrete multipart POST request. -/
theorem multipart_absent_fields_default_witness :
    parse_http_body witnessVM emptyMultipartReq =
      .ok { query := none, variables_ := none, operation_name := none,
            protocol := .http }
    ∧ run witnessVM emptyMultipartReq .query =
        .error (400, "No GraphQL query found in the request") :=
  multipart_absent_fields_default witnessVM emptyMultipartReq
    [("other", "x")] [] .query rfl rfl rfl rfl rfl rfl

/-- The upload-scenario request with the file `f` present. -/
def uploadReqWithFile : RequestAdapter :=
  { method := .POST
    content_type := some "multipart/form-data"
    query_params := []
    body := ""
    form_data :=
      .ok { form := [("operations", uploadOpsText), ("map", uploadMapText)]
            files := [("f", 7)] } }

/-- The upload-scenario request with the file `f` absent. -/
def uploadReqNoFile : RequestAdapter :=
  { method := .POST
    content_type := some "multipart/form-data"
    query_params := []
    body := ""
    form_data :=
      .ok { form := [("operations", uploadOpsText), ("map", uploadMapText)]
            files := [] } }

/-- Witness for C8 at the concrete upload-scenario requests. -/
theorem multipart_upload_scenario_witness :
    parse_http_body witnessVM uploadReqWithFile =
      .ok { query := some (.str "\x7b upload(file: $f) \x7d")
            variables_ := some (.obj (.cons "f" (.file 7) .nil))
            operation_name := none
            protocol := .http }
    ∧ parse_http_body witnessVM uploadReqNoFile =
        .error (.httpExc 400 "File(s) missing in form data")
    ∧ run witnessVM uploadReqNoFile .query =
        .error (400, "File(s) missing in form data") :=
  multipart_upload_scenario witnessVM uploadReqWithFile uploadReqNoFile .query
    rfl rfl rfl rfl rfl rfl rfl rfl

/-- The GET request used by the C2 amended witness: no subscription
marker, a query present, queries via GET disabled. -/
def plainGetReq : RequestAdapter :=
  { method := .GET
    content_type := none
    query_params := [("query", "q")]
    body := ""
    form_data := .error () }

/-- The canonical request `plainGetReq` parses to under `gateVM`. -/
def plainGetRd : GraphQLRequestData :=
  { query := some (.str "q"), variables_ := none, operation_name := none,
    protocol := .http }

/-- Witness for the C2 amended claim at a concrete GET request with
queries via GET disabled. -/
theorem gate_enforced_on_http_path_witness :
    run gateVM plainGetReq .query =
      .error (400, invalid_operation_reason .query .GET) :=
  (gate_enforced_on_http_path gateVM plainGetReq .query plainGetRd
    (Or.inl rfl) rfl rfl rfl (by decide)).1

/-- An unsupported-content-type POST request for the C6 witness. -/
def unsupportedPostReq : RequestAdapter :=
  { method := .POST
    content_type := some "text/plain"
    query_params := []
    body := ""
    form_data := .error () }

/-- A GET request with an arbitrary content type for the C6 witness. -/
def plainTextGetReq : RequestAdapter :=
  { method := .GET
    content_type := some "text/plain"
    query_params := [("query", "q")]
    body := ""
    form_data := .error () }

/-- Witness for C6 at concrete POST and GET requests. -/
theorem parse_selects_exactly_one_strategy_witness :
    parse_http_body witnessVM unsupportedPostReq =
      .error (.httpExc 400 "Unsupported content type")
    ∧ chooseStrategy witnessVM .GET (some "text/plain") = some .queryParams :=
  ⟨(parse_selects_exactly_one_strategy witnessVM unsupportedPostReq).2.1 rfl rfl,
   ((parse_selects_exactly_one_strategy witnessVM plainTextGetReq).2.2 rfl).1⟩

/-! ### Multipart frame encoding (claim C9) -/

/-- Decimal digit characters. -/
def digitChar : Nat → Char
  | 0 => '0' | 1 => '1' | 2 => '2' | 3 => '3' | 4 => '4'
  | 5 => '5' | 6 => '6' | 7 => '7' | 8 => '8' | 9 => '9'
  | _ => '0'

/-- Hexadecimal digit characters. -/
def hexDigit : Nat → Char
  | 0 => '0' | 1 => '1' | 2 => '2' | 3 => '3' | 4 => '4'
  | 5 => '5' | 6 => '6' | 7 => '7' | 8 => '8' | 9 => '9'
  | 10 => 'a' | 11 => 'b' | 12 => 'c' | 13 => 'd' | 14 => 'e' | 15 => 'f'
  | _ => '0'

/-- Decimal digits of a natural number. -/
def natChars (m : Nat) : List Char :=
  if m < 10 then [digitChar m]
  else natChars (m / 10) ++ [digitChar (m % 10)]
termination_by m
decreasing_by
  exact Nat.div_lt_self (by omega) (by omega)

/-- Decimal rendering of an integer. -/
def intChars (n : Int) : List Char :=
  if n < 0 then '-' :: natChars n.natAbs else natChars n.toNat

/-- JSON string escaping of one character, as `json.dumps` performs it:
quote, backslash and control characters are escaped, so the output
never contains a carriage return or newline byte. -/
def escChar (c : Char) : List Char :=
  if c = '"' then ['\\', '"']
  else if c = '\\' then ['\\', '\\']
  else if c = '\n' then ['\\', 'n']
  else if c = '\r' then ['\\', 'r']
  else if c = '\t' then ['\\', 't']
  else if c.toNat < 32 then
    ['\\', 'u', '0', '0', hexDigit (c.toNat / 16), hexDigit (c.toNat % 16)]
  else [c]

/-- JSON string escaping of a character list. -/
def escList : List Char → List Char
  | [] => []
  | c :: t => escChar c ++ escList t

mutual
/-- Modelled from the spec: `BaseView.encode_json` (not among the
sources) serializes a value as JSON, `json.dumps`-style: strings are
quoted with control characters escaped, so the output contains no raw
carriage return; opaque file handles are rendered as a bracketed
number. -/
def jsonEncode : Json → List Char
  | .null => ['n', 'u', 'l', 'l']
  | .jbool true => ['t', 'r', 'u', 'e']
  | .jbool false => ['f', 'a', 'l', 's', 'e']
  | .num n => intChars n
  | .str s => '"' :: escList s.data ++ ['"']
  | .file h => '<' :: natChars h ++ ['>']
  | .arr xs => '[' :: jsonEncodeItems xs ++ [']']
  | .obj fs => '\x7b' :: jsonEncodeFields fs ++ ['\x7d']

/-- Comma-separated encodings of a JSON list's elements. -/
def jsonEncodeItems : JsonList → List Char
  | .nil => []
  | .cons h .nil => jsonEncode h
  | .cons h tl => jsonEncode h ++ ',' :: jsonEncodeItems tl

/-- Comma-separated `"key":value` encodings of a JSON object's fields. -/
def jsonEncodeFields : JsonFields → List Char
  | .nil => []
  | .cons k v .nil => '"' :: escList k.data ++ ['"', ':'] ++ jsonEncode v
  | .cons k v tl =>
      '"' :: escList k.data ++ ['"', ':'] ++ jsonEncode v
        ++ ',' :: jsonEncodeFields tl
end

/-- JSON serialization as a string (`self.encode_json(data)`). -/
def encode_json (d : Json) : String :=
  String.mk (jsonEncode d)

/-- `AsyncBaseHTTPView.encode_multipart_data`: one multipart frame,
the boundary line for the separator, the part's JSON content-type
header, the JSON-encoded data and a trailing newline, joined. -/
def encode_multipart_data (data : Json) (separator : String) : String :=
  "\r\n--" ++ separator ++ "\r\n"
    ++ "Content-Type: application/json\r\n\r\n"
    ++ encode_json data
    ++ "\n"

/-- Number of positions at which a pattern occurs inside a character
list. -/
def subCount (p : List Char) : List Char → Nat
  | [] => if listBeginsWith p [] then 1 else 0
  | l@(_ :: t) => if listBeginsWith p l then (subCount p t).succ else subCount p t

/-- No decimal digit is a carriage return or a minus sign. -/
theorem digitChar_props (k : Nat) : digitChar k ≠ '\r' ∧ digitChar k ≠ '-' := by
  unfold digitChar
  split <;> exact ⟨by decide, by decide⟩

/-- No hexadecimal digit is a carriage return. -/
theorem hexDigit_ne_cr (k : Nat) : hexDigit k ≠ '\r' := by
  unfold hexDigit
  split <;> decide

/-- `natChars` produces no carriage return. -/
theorem natChars_no_cr (m : Nat) : '\r' ∉ natChars m := by
  induction m using Nat.strong_induction_on with
  | _ m ih =>
    unfold natChars
    split
    · simp [(digitChar_props m).1.symm]
    · intro hmem
      rcases List.mem_append.mp hmem with h | h
      · exact ih (m / 10) (Nat.div_lt_self (by omega) (by omega)) h
      · simp at h
        exact (digitChar_props (m % 10)).1 h.symm

/-- `natChars` is a digit followed by more characters. -/
theorem natChars_shape (m : Nat) :
    ∃ k t, natChars m = digitChar k :: t := by
  induction m using Nat.strong_induction_on with
  | _ m ih =>
    unfold natChars
    split
    · exact ⟨m, [], rfl⟩
    · obtain ⟨k, t, h⟩ := ih (m / 10) (Nat.div_lt_self (by omega) (by omega))
      exact ⟨k, t ++ [digitChar (m % 10)], by rw [h]; rfl⟩

/-- `intChars` produces no carriage return. -/
theorem intChars_no_cr (n : Int) : '\r' ∉ intChars n := by
  unfold intChars
  split
  · intro hmem
    rcases List.mem_cons.mp hmem with h | h
    · exact absurd h (by decide)
    · exact natChars_no_cr _ h
  · exact natChars_no_cr _

/-- Escaping one character produces no carriage return. -/
theorem escChar_no_cr (c : Char) : '\r' ∉ escChar c := by
  unfold escChar
  by_cases h1 : c = '"'
  · simp [h1]
  by_cases h2 : c = '\\'
  · simp [h1, h2]
  by_cases h3 : c = '\n'
  · simp [h1, h2, h3]
  by_cases h4 : c = '\r'
  · simp [h1, h2, h3, h4]
  by_cases h5 : c = '\t'
  · simp [h1, h2, h3, h4, h5]
  by_cases h6 : c.toNat < 32
  · simp only [h1, h2, h3, h4, h5, h6, if_true, if_false, ite_true, ite_false,
      if_neg (fun hh => h1 hh), if_neg (fun hh => h2 hh), if_neg (fun hh => h3 hh),
      if_neg (fun hh => h4 hh), if_neg (fun hh => h5 hh), if_pos h6]
    intro hmem
    simp at hmem
    rcases hmem with h | h
    · exact hexDigit_ne_cr _ h.symm
    · exact hexDigit_ne_cr _ h.symm
  · simp [h1, h2, h3, h4, h5, h6]
    exact fun hh => h4 hh.symm

/-- Escaping a character list produces no carriage return. -/
theorem escList_no_cr (l : List Char) : '\r' ∉ escList l := by
  induction l with
  | nil => simp [escList]
  | cons c t ih =>
      simp only [escList]
      intro hmem
      rcases List.mem_append.mp hmem with h | h
      · exact escChar_no_cr c h
      · exact ih h

mutual
/-- The JSON encoding of a value contains no carriage return. -/
theorem jsonEncode_no_cr : ∀ j : Json, '\r' ∉ jsonEncode j
  | .null => by simp [jsonEncode]
  | .jbool true => by simp [jsonEncode]
  | .jbool false => by simp [jsonEncode]
  | .num n => intChars_no_cr n
  | .str s => by
      simp only [jsonEncode]
      intro hmem
      rcases List.mem_cons.mp hmem with h | h
      · exact absurd h (by decide)
      · rcases List.mem_append.mp h with h' | h'
        · exact escList_no_cr _ h'
        · simp at h'
  | .file h => by
      simp only [jsonEncode]
      intro hmem
      rcases List.mem_cons.mp hmem with h' | h'
      · exact absurd h' (by decide)
      · rcases List.mem_append.mp h' with h'' | h''
        · exact natChars_no_cr _ h''
        · simp at h''
  | .arr xs => by
      simp only [jsonEncode]
      intro hmem
      rcases List.mem_cons.mp hmem with h | h
      · exact absurd h (by decide)
      · rcases List.mem_append.mp h with h' | h'
        · exact jsonEncodeItems_no_cr xs h'
        · simp at h'
  | .obj fs => by
      simp only [jsonEncode]
      intro hmem
      rcases List.mem_cons.mp hmem with h | h
      · exact absurd h (by decide)
      · rcases List.mem_append.mp h with h' | h'
        · exact jsonEncodeFields_no_cr fs h'
        · simp at h'

/-- The encodings of a JSON list's elements contain no carriage
return. -/
theorem jsonEncodeItems_no_cr : ∀ l : JsonList, '\r' ∉ jsonEncodeItems l
  | .nil => by simp [jsonEncodeItems]
  | .cons h .nil => jsonEncode_no_cr h
  | .cons h (.cons h2 tl) => by
      simp only [jsonEncodeItems]
      intro hmem
      rcases List.mem_append.mp hmem with h' | h'
      · exact jsonEncode_no_cr h h'
      · rcases List.mem_cons.mp h' with h'' | h''
        · exact absurd h'' (by decide)
        · exact jsonEncodeItems_no_cr (.cons h2 tl) h''

/-- The encodings of a JSON object's fields contain no carriage
return. -/
theorem jsonEncodeFields_no_cr : ∀ fs : JsonFields, '\r' ∉ jsonEncodeFields fs
  | .nil => by simp [jsonEncodeFields]
  | .cons k v .nil => by
      simp only [jsonEncodeFields]
      intro hmem
      rcases List.mem_cons.mp hmem with h | h
      · exact absurd h (by decide)
      · rcases List.mem_append.mp h with h' | h'
        · rcases List.mem_append.mp h' with h'' | h''
          · exact escList_no_cr _ h''
          · simp at h''
        · exact jsonEncode_no_cr v h'
  | .cons k v (.cons k2 v2 tl) => by
      simp only [jsonEncodeFields]
      intro hmem
      rcases List.mem_cons.mp hmem with h | h
      · exact absurd h (by decide)
      · rcases List.mem_append.mp h with h' | h'
        · rcases List.mem_append.mp h' with h'' | h''
          · rcases List.mem_append.mp h'' with h3 | h3
            · exact escList_no_cr _ h3
            · simp at h3
          · exact jsonEncode_no_cr v h''
        · rcases List.mem_cons.mp h' with h'' | h''
          · exact absurd h'' (by decide)
          · exact jsonEncodeFields_no_cr (.cons k2 v2 tl) h''
end

/-- The JSON encoding of a value never starts with two dashes (it
starts with a quote, bracket, brace, letter, digit, the file-handle
bracket, or a minus sign followed by a digit). -/
theorem jsonEncode_not_dashdash (j : Json) (q r : List Char) :
    listBeginsWith ('-' :: '-' :: q) (jsonEncode j ++ r) = false := by
  cases j with
  | null => simp [jsonEncode, listBeginsWith]
  | jbool b => cases b <;> simp [jsonEncode, listBeginsWith]
  | str s => simp [jsonEncode, listBeginsWith]
  | file h => simp [jsonEncode, listBeginsWith]
  | arr xs => simp [jsonEncode, listBeginsWith]
  | obj fs => simp [jsonEncode, listBeginsWith]
  | num n =>
      simp only [jsonEncode, intChars]
      split
      · obtain ⟨k, t, hk⟩ := natChars_shape n.natAbs
        rw [hk]
        have hne : ('-' : Char) ≠ digitChar k := fun hh => (digitChar_props k).2 hh.symm
        simp [listBeginsWith, hne]
      · obtain ⟨k, t, hk⟩ := natChars_shape n.toNat
        rw [hk]
        have hne : ('-' : Char) ≠ digitChar k := fun hh => (digitChar_props k).2 hh.symm
        simp [listBeginsWith, hne]

/-- A pattern starting with a carriage return matches nowhere inside a
carriage-return-free list, so occurrence counting skips past it. -/
theorem subCount_append_no_cr (p : List Char) (l r : List Char)
    (hl : '\r' ∉ l) :
    subCount ('\r' :: p) (l ++ r) = subCount ('\r' :: p) r := by
  induction l with
  | nil => simp
  | cons c t ih =>
      have hc : ¬ (('\r' : Char) = c) := fun hh => hl (hh ▸ List.mem_cons_self c t)
      have ht : '\r' ∉ t := fun hh => hl (List.mem_cons_of_mem c hh)
      simp only [List.cons_append, subCount]
      rw [if_neg (by simp [listBeginsWith, hc])]
      exact ih ht

/-- The multipart boundary marker of the `graphql` separator: a CRLF
followed by two dashes and the separator name. -/
def boundaryMarker : List Char :=
  ['\r', '\n', '-', '-', 'g', 'r', 'a', 'p', 'h', 'q', 'l']

/-- Locate the single part of an encoded frame: check the boundary
line and the part's content-type header, then return that header and
the JSON payload between the header and the trailing newline. -/
def locatePart (s : String) : Option (String × String) :=
  if listBeginsWith
      ("\r\n--graphql\r\nContent-Type: application/json\r\n\r\n").data s.data then
    some ("Content-Type: application/json", String.mk ((s.data.drop 47).dropLast))
  else none

/-- C9: encoding a subscription payload with `encode_multipart_data`
and separator `graphql` yields the boundary-marker line, the
`Content-Type: application/json` part header, the JSON payload and a
trailing newline; the boundary marker occurs exactly once in the frame,
and locating it recovers exactly the one JSON payload, preceded by that
header. -/
theorem encode_multipart_round_trip (d : Json) :
    boundaryMarker = "\r\n--graphql".data
    ∧ (encode_multipart_data d "graphql").data
        = boundaryMarker
            ++ ("\r\nContent-Type: application/json\r\n\r\n".data
              ++ (jsonEncode d ++ ['\n']))
    ∧ subCount boundaryMarker (encode_multipart_data d "graphql").data = 1
    ∧ locatePart (encode_multipart_data d "graphql")
        = some ("Content-Type: application/json", encode_json d) := by
  have hdd : listBeginsWith ('-' :: '-' :: ['g', 'r', 'a', 'p', 'h', 'q', 'l'])
      (jsonEncode d ++ ['\n']) = false :=
    jsonEncode_not_dashdash d ['g', 'r', 'a', 'p', 'h', 'q', 'l'] ['\n']
  have hskip : subCount boundaryMarker (jsonEncode d ++ ['\n']) = 0 := by
    calc subCount boundaryMarker (jsonEncode d ++ ['\n'])
        = subCount ('\r' :: ['\n', '-', '-', 'g', 'r', 'a', 'p', 'h', 'q', 'l'])
            (jsonEncode d ++ ['\n']) := rfl
      _ = subCount ('\r' :: ['\n', '-', '-', 'g', 'r', 'a', 'p', 'h', 'q', 'l'])
            ['\n'] := subCount_append_no_cr _ _ _ (jsonEncode_no_cr d)
      _ = 0 := rfl
  have hcount : subCount boundaryMarker (encode_multipart_data d "graphql").data = 1 := by
    calc subCount boundaryMarker (encode_multipart_data d "graphql").data
        = (if listBeginsWith ('-' :: '-' :: ['g', 'r', 'a', 'p', 'h', 'q', 'l'])
              (jsonEncode d ++ ['\n']) = true
           then (subCount boundaryMarker ('\n' :: (jsonEncode d ++ ['\n']))).succ
           else subCount boundaryMarker ('\n' :: (jsonEncode d ++ ['\n']))).succ := rfl
      _ = (subCount boundaryMarker ('\n' :: (jsonEncode d ++ ['\n']))).succ := by
            rw [hdd]
            simp
      _ = (subCount boundaryMarker (jsonEncode d ++ ['\n'])).succ := rfl
      _ = 1 := by rw [hskip]
  have hloc : locatePart (encode_multipart_data d "graphql")
      = some ("Content-Type: application/json", encode_json d) := by
    have hdl : (jsonEncode d ++ ['\n']).dropLast = jsonEncode d := by simp
    calc locatePart (encode_multipart_data d "graphql")
        = some ("Content-Type: application/json",
            String.mk ((jsonEncode d ++ ['\n']).dropLast)) := rfl
      _ = some ("Content-Type: application/json", encode_json d) := by
            rw [hdl]
            rfl
  exact ⟨rfl, rfl, hcount, hloc⟩

/-! ### The stream multiplexer (claims C1, C3, C4, C5)

`_stream_with_heartbeat` is embedded as a discrete-event simulation of
the single-threaded cooperative scheduler: the drain task, the
heartbeat task and the consumer (the `merged` generator) run one at a
time; a task runs synchronously until it suspends (awaiting the next
stream item, the heartbeat sleep, a full queue on put, or an empty
queue on get); queue wakeups are FIFO; when no task is runnable,
virtual time advances to the earliest deadline, waking drain, then
heartbeat, then an abandoning consumer for equal deadlines.  Awaiting a
coroutine that does not block (encoding a frame, the downstream write
of a yielded chunk) does not yield to the scheduler. -/

/-- How the subscription source behaves once its items are exhausted:
clean exhaustion or an exception carrying a message. -/
inductive SFin where
  | stop
  | fail (e : String)
  deriving DecidableEq, Repr

/-- Drain task phase: suspended awaiting the next stream item,
suspended in `queue.put`, completed, failed with a re-raised error, or
cancelled. -/
inductive DrainPhase where
  | waitStream
  | putBlocked (isErr : Bool) (frame : String)
  | doneOk
  | raised (e : String)
  | cancelledD
  deriving DecidableEq, Repr

/-- Whether `task.done()` is true for the drain task. -/
def DrainPhase.settled : DrainPhase → Bool
  | .doneOk => true
  | .raised _ => true
  | .cancelledD => true
  | _ => false

/-- Heartbeat task phase: sleeping until a deadline, suspended in
`queue.put`, or cancelled. -/
inductive HBPhase where
  | sleeping (till : Nat)
  | putBlockedH
  | cancelledH
  deriving DecidableEq, Repr

/-- How the consumer generator ended. -/
inductive ConsOutcome where
  | normal
  | errored (e : String)
  | abandoned
  deriving DecidableEq, Repr

/-- Consumer phase: suspended in `queue.get`, resumed by the consumer
abandoning the generator (client disconnect), or finished. -/
inductive ConsPhase where
  | waitingGet
  | abandoning
  | finished (o : ConsOutcome)
  deriving DecidableEq, Repr

/-- Whether the consumer generator has ended. -/
def ConsPhase.isFinished : ConsPhase → Bool
  | .finished _ => true
  | _ => false

/-- The three cooperative tasks. -/
inductive TaskId where
  | drain
  | hb
  | cons
  deriving DecidableEq, Repr

/-- Events recorded by `cancel_tasks`, in execution order. -/
inductive TEv where
  | setCancelling
  | cancelDrainTask
  | awaitDrainTask
  | cancelHeartbeatTask
  | awaitHeartbeatTask
  deriving DecidableEq, Repr

/-- The multiplexer state: virtual time, the single-slot queue, the
`cancelling` flag, the three task phases (with the drain's remaining
timed stream items and its termination behaviour), the FIFO ready
queue, the FIFO of putters blocked on the full queue, the frames
yielded so far, the teardown event trace, and the optional time at
which the consumer abandons the generator. -/
structure MuxState where
  time : Nat
  queue : Option (Bool × String)
  cancelling : Bool
  drain : DrainPhase
  dYields : List (Nat × String)
  dFinAt : Nat
  dFin : SFin
  hb : HBPhase
  cons : ConsPhase
  ready : List TaskId
  putters : List TaskId
  output : List String
  trace : List TEv
  abandonAt : Option Nat
  deriving DecidableEq, Repr

/-- Wake the consumer if it is suspended in `queue.get` (a queue put
schedules the getter). -/
def wakeCons (s : MuxState) : MuxState :=
  if s.cons = .waitingGet ∧ ¬ s.ready.contains .cons then
    { s with ready := s.ready ++ [.cons] }
  else s

/-- Wake the first putter blocked on the queue (a queue pop schedules
it). -/
def wakePutter (s : MuxState) : MuxState :=
  match s.putters with
  | [] => s
  | t :: rest => { s with putters := rest, ready := s.ready ++ [t] }

/-- The heartbeat frame: `encode_multipart_data({}, "graphql")`. -/
def heartbeatFrame : String :=
  encode_multipart_data (.obj .nil) "graphql"

/-- The closing boundary frame `--separator--` of `_get_stream`. -/
def closingFrame (separator : String) : String :=
  "\r\n--" ++ separator ++ "--" ++ "\r\n"

/-- The `drain` producer running synchronously: consume stream items
that have already arrived, pushing `(False, frame)` pairs and blocking
on a full queue; on exhaustion, either complete (the closing frame was
already one of the yields) or run the `except` handler: push
`(True, error)` when cancellation was not requested, re-raise
otherwise. -/
def drainConsume : List (Nat × String) → MuxState → MuxState
  | (t, f) :: rest, s =>
      if t ≤ s.time then
        match s.queue with
        | none =>
            drainConsume rest
              (wakeCons { s with queue := some (false, f), dYields := rest })
        | some _ =>
            { s with drain := .putBlocked false f, dYields := rest,
                     putters := s.putters ++ [.drain] }
      else { s with drain := .waitStream }
  | [], s =>
      if s.dFinAt ≤ s.time then
        match s.dFin with
        | .stop => { s with drain := .doneOk }
        | .fail e =>
            if s.cancelling then { s with drain := .raised e }
            else
              match s.queue with
              | none =>
                  wakeCons { s with queue := some (true, e), drain := .doneOk }
              | some _ =>
                  { s with drain := .putBlocked true e,
                           putters := s.putters ++ [.drain] }
      else { s with drain := .waitStream }

/-- One scheduled run of the drain task: resume from its suspension
point and run until the next one. -/
def runDrainTask (s : MuxState) : MuxState :=
  match s.drain with
  | .waitStream => drainConsume s.dYields s
  | .putBlocked b f =>
      match s.queue with
      | none =>
          let s' := wakeCons { s with queue := some (b, f) }
          if b then { s' with drain := .doneOk }
          else drainConsume s'.dYields { s' with drain := .waitStream }
      | some _ => { s with putters := s.putters ++ [.drain] }
  | _ => s

/-- One scheduled run of the heartbeat task: push the heartbeat frame,
blocking while the queue is full, then sleep for the 5-second
interval. -/
def runHB (s : MuxState) : MuxState :=
  match s.hb with
  | .cancelledH => s
  | _ =>
      match s.queue with
      | none =>
          wakeCons
            { s with queue := some (false, heartbeatFrame),
                     hb := .sleeping (s.time + 5) }
      | some _ => { s with hb := .putBlockedH, putters := s.putters ++ [.hb] }

/-- `cancel_tasks`: set the cancelling flag, cancel the drain task and
await it while suppressing its cancellation acknowledgement, then
cancel the heartbeat task and await it the same way.  Cancelling a
settled task is a no-op; cancelling a suspended task removes it from
every wait queue. -/
def cancel_tasks (s : MuxState) : MuxState :=
  let s1 := { s with cancelling := true, trace := s.trace ++ [TEv.setCancelling] }
  let s2 :=
    if s1.drain.settled then { s1 with trace := s1.trace ++ [TEv.cancelDrainTask] }
    else
      { s1 with drain := .cancelledD,
                putters := s1.putters.filter (fun t => t ≠ TaskId.drain),
                ready := s1.ready.filter (fun t => t ≠ TaskId.drain),
                trace := s1.trace ++ [TEv.cancelDrainTask] }
  let s3 := { s2 with trace := s2.trace ++ [TEv.awaitDrainTask] }
  let s4 :=
    { s3 with hb := .cancelledH,
              putters := s3.putters.filter (fun t => t ≠ TaskId.hb),
              ready := s3.ready.filter (fun t => t ≠ TaskId.hb),
              trace := s3.trace ++ [TEv.cancelHeartbeatTask] }
  { s4 with trace := s4.trace ++ [TEv.awaitHeartbeatTask] }

/-- One scheduled run of the consumer (the `merged` generator): resume
inside `queue.get`, pop the pair, tear down and re-raise on an error
pair, otherwise yield the frame and re-check the loop condition
`not task.done()`, exiting through the `finally` teardown when the
drain task has settled; an abandoning consumer runs the `finally`
teardown directly. -/
def runCons (s : MuxState) : MuxState :=
  match s.cons with
  | .finished _ => s
  | .abandoning =>
      let s' := cancel_tasks s
      { s' with cons := .finished .abandoned }
  | .waitingGet =>
      match s.queue with
      | none => s
      | some (isErr, data) =>
          let s1 := wakePutter { s with queue := none }
          if isErr then
            let s2 := cancel_tasks s1
            { s2 with cons := .finished (.errored data) }
          else
            let s2 := { s1 with output := s1.output ++ [data] }
            if s2.drain.settled then
              let s3 := cancel_tasks s2
              { s3 with cons := .finished .normal }
            else s2

/-- Dispatch one scheduled run of a task. -/
def runTask : TaskId → MuxState → MuxState
  | .drain => runDrainTask
  | .hb => runHB
  | .cons => runCons

/-- The time at which the drain task's pending stream await resolves. -/
def drainDeadline (s : MuxState) : Option Nat :=
  match s.drain with
  | .waitStream =>
      match s.dYields with
      | (t, _) :: _ => some t
      | [] => some s.dFinAt
  | _ => none

/-- The heartbeat task's sleep deadline. -/
def hbDeadline (s : MuxState) : Option Nat :=
  match s.hb with
  | .sleeping t => some t
  | _ => none

/-- The time at which the consumer abandons the generator, when it is
suspended in `queue.get`. -/
def consDeadline (s : MuxState) : Option Nat :=
  if s.cons = .waitingGet then s.abandonAt else none

/-- The earliest pending deadline, if any. -/
def minDeadline (s : MuxState) : Option Nat :=
  [drainDeadline s, hbDeadline s, consDeadline s].foldl
    (fun acc d =>
      match acc, d with
      | none, d => d
      | some a, none => some a
      | some a, some b => some (min a b))
    none

/-- One scheduler step: run the first ready task, or — when none is
ready — advance virtual time to the earliest deadline and wake the
tasks whose deadline it is, drain first, then heartbeat, then an
abandoning consumer. -/
def step (s : MuxState) : MuxState :=
  match s.ready with
  | t :: rest => runTask t { s with ready := rest }
  | [] =>
      match minDeadline s with
      | none => s
      | some tMin =>
          let s0 := { s with time := max s.time tMin }
          let s1 :=
            if drainDeadline s = some tMin then
              { s0 with ready := s0.ready ++ [.drain] }
            else s0
          let s2 :=
            if hbDeadline s = some tMin then
              { s1 with ready := s1.ready ++ [.hb] }
            else s1
          if consDeadline s = some tMin then
            { s2 with ready := s2.ready ++ [.cons], cons := .abandoning,
                      abandonAt := none }
          else s2

/-- Run the scheduler for a bounded number of steps. -/
def runMux : Nat → MuxState → MuxState
  | 0, s => s
  | n + 1, s => runMux n (step s)

/-- The initial multiplexer state of `merged`: the heartbeat task is
created first and the drain task second (both scheduled, in that
order), and the consumer has checked the fresh drain task and
suspended in `queue.get`. -/
def initMux (yields : List (Nat × String)) (finAt : Nat) (fin : SFin)
    (abandonAt : Option Nat) : MuxState :=
  { time := 0
    queue := none
    cancelling := false
    drain := .waitStream
    dYields := yields
    dFinAt := finAt
    dFin := fin
    hb := .sleeping 0
    cons := .waitingGet
    ready := [.hb, .drain]
    putters := []
    output := []
    trace := []
    abandonAt := abandonAt }

/-- The frame `_get_stream` encodes for one subscription payload. -/
def itemFrame (v : Json) : String :=
  encode_multipart_data (.obj (.cons "payload" v .nil)) "graphql"

/-- `_get_stream`'s stream as a list of frames: one encoded frame per
result payload, then the closing boundary frame. -/
def streamFrames (results : List Json) (separator : String) : List String :=
  results.map
    (fun v => encode_multipart_data (.obj (.cons "payload" v .nil)) separator)
    ++ [closingFrame separator]

/-- `_get_stream`'s stream as timed drain yields: each payload's frame
at its arrival time, then the closing boundary frame at the exhaustion
time. -/
def timedStream (results : List (Nat × Json)) (endAt : Nat) :
    List (Nat × String) :=
  results.map (fun p => (p.1, itemFrame p.2)) ++ [(endAt, closingFrame "graphql")]

/-- The teardown event sequence of `cancel_tasks`, in order. -/
def teardownSeq : List TEv :=
  [.setCancelling, .cancelDrainTask, .awaitDrainTask,
   .cancelHeartbeatTask, .awaitHeartbeatTask]

/-- The C1 scenario: payloads at t=1s, 2s, 8s, source exhausted at
t=8s, heartbeat interval 5s, consumer never abandons. -/
def scenarioYields : List (Nat × String) :=
  timedStream [(1, .str "item1"), (2, .str "item2"), (8, .str "item3")] 8

/-- The C1 scenario's final simulation state. -/
def scenarioRun : MuxState :=
  runMux 40 (initMux scenarioYields 8 .stop none)

/-- C1 counterexample: in the t=1s,2s,8s scenario with heartbeat
interval 5s, the observed output is not
[item1, item2, heartbeat, item3, closing-frame] — the heartbeat task
pushes a first heartbeat at t=0, before its first sleep, so the output
has six frames, not five. -/
theorem multiplexer_ordering_counterexample :
    scenarioRun.output ≠
      [itemFrame (.str "item1"), itemFrame (.str "item2"), heartbeatFrame,
       itemFrame (.str "item3"), closingFrame "graphql"] := by
  intro h
  have hlen := congrArg List.length h
  have h6 : scenarioRun.output.length = 6 := by decide
  rw [h6] at hlen
  simp at hlen

/-- C1 amended: the heartbeat producer pushes a heartbeat immediately
and then sleeps for the 5-second interval, so in the t=1s,2s,8s
scenario the output frame sequence is
[heartbeat@0s, item1, item2, heartbeat@5s, item3, closing-frame]; a
heartbeat interleaves only when no result item arrives first, and the
consumer completes normally. -/
theorem multiplexer_ordering_amended :
    scenarioRun.output =
      [heartbeatFrame, itemFrame (.str "item1"), itemFrame (.str "item2"),
       heartbeatFrame, itemFrame (.str "item3"), closingFrame "graphql"]
    ∧ scenarioRun.cons = .finished .normal := by
  exact ⟨by decide, by decide⟩

/-- `wakeCons` does not change the consumer phase. -/
@[simp]
theorem wakeCons_cons (s : MuxState) : (wakeCons s).cons = s.cons := by
  unfold wakeCons
  split <;> simp

/-- `wakeCons` does not change the output. -/
@[simp]
theorem wakeCons_output (s : MuxState) : (wakeCons s).output = s.output := by
  unfold wakeCons
  split <;> simp

/-- `wakeCons` does not change the teardown trace. -/
@[simp]
theorem wakeCons_trace (s : MuxState) : (wakeCons s).trace = s.trace := by
  unfold wakeCons
  split <;> simp

/-- `wakeCons` does not change the queue. -/
@[simp]
theorem wakeCons_queue (s : MuxState) : (wakeCons s).queue = s.queue := by
  unfold wakeCons
  split <;> simp

/-- The drain producer's synchronous run never touches the consumer
phase, the output, or the teardown trace. -/
theorem drainConsume_preserve (ys : List (Nat × String)) :
    ∀ s : MuxState,
      (drainConsume ys s).cons = s.cons
      ∧ (drainConsume ys s).output = s.output
      ∧ (drainConsume ys s).trace = s.trace := by
  induction ys with
  | nil =>
      intro s
      unfold drainConsume
      split
      · split <;> first
          | simp
          | (split
             · simp
             · split <;> simp)
      · simp
  | cons y rest ih =>
      intro s
      unfold drainConsume
      split
      · split
        · refine ⟨?_, ?_, ?_⟩
          · rw [(ih _).1]; simp
          · rw [(ih _).2.1]; simp
          · rw [(ih _).2.2]; simp
        · simp
      · simp

/-- A scheduled drain run never touches the consumer phase, the
output, or the teardown trace. -/
theorem runDrainTask_preserve (s : MuxState) :
    (runDrainTask s).cons = s.cons
    ∧ (runDrainTask s).output = s.output
    ∧ (runDrainTask s).trace = s.trace := by
  unfold runDrainTask
  split
  · exact drainConsume_preserve _ _
  · split
    · split
      · simp
      · refine ⟨?_, ?_, ?_⟩
        · rw [(drainConsume_preserve _ _).1]; simp
        · rw [(drainConsume_preserve _ _).2.1]; simp
        · rw [(drainConsume_preserve _ _).2.2]; simp
    · simp
  · simp

/-- A scheduled heartbeat run never touches the consumer phase, the
output, or the teardown trace. -/
theorem runHB_preserve (s : MuxState) :
    (runHB s).cons = s.cons
    ∧ (runHB s).output = s.output
    ∧ (runHB s).trace = s.trace := by
  unfold runHB
  split
  · simp
  · split <;> simp

/-- What `cancel_tasks` does: record the five teardown events in
order, set the cancelling flag, settle the drain task and cancel the
heartbeat task, touching neither the consumer phase, the output, nor
the queue. -/
theorem cancel_tasks_spec (s : MuxState) :
    (cancel_tasks s).trace = s.trace ++ teardownSeq
    ∧ (cancel_tasks s).cancelling = true
    ∧ (cancel_tasks s).hb = .cancelledH
    ∧ (cancel_tasks s).drain.settled = true
    ∧ (cancel_tasks s).output = s.output
    ∧ (cancel_tasks s).cons = s.cons
    ∧ (cancel_tasks s).queue = s.queue := by
  by_cases hset : s.drain.settled = true
  · simp [cancel_tasks, hset, teardownSeq]
  · simp only [Bool.not_eq_true] at hset
    refine ⟨?_, ?_, ?_, ?_, ?_, ?_, ?_⟩ <;>
      first
        | (simp [cancel_tasks, hset, teardownSeq]; done)
        | (simp [cancel_tasks, hset, teardownSeq]; decide)

/-- `wakePutter` does not change the consumer phase. -/
@[simp]
theorem wakePutter_cons (s : MuxState) : (wakePutter s).cons = s.cons := by
  unfold wakePutter
  split <;> simp

/-- `wakePutter` does not change the output. -/
@[simp]
theorem wakePutter_output (s : MuxState) : (wakePutter s).output = s.output := by
  unfold wakePutter
  split <;> simp

/-- `wakePutter` does not change the teardown trace. -/
@[simp]
theorem wakePutter_trace (s : MuxState) : (wakePutter s).trace = s.trace := by
  unfold wakePutter
  split <;> simp

/-- `wakePutter` does not change the queue. -/
@[simp]
theorem wakePutter_queue (s : MuxState) : (wakePutter s).queue = s.queue := by
  unfold wakePutter
  split <;> simp

/-- `wakePutter` does not change the drain phase. -/
@[simp]
theorem wakePutter_drain (s : MuxState) : (wakePutter s).drain = s.drain := by
  unfold wakePutter
  split <;> simp

/-- `wakePutter` does not change the heartbeat phase. -/
@[simp]
theorem wakePutter_hb (s : MuxState) : (wakePutter s).hb = s.hb := by
  unfold wakePutter
  split <;> simp

/-- An abandoning consumer tears down and finishes abandoned. -/
theorem runCons_abandoning (s : MuxState) (hc : s.cons = .abandoning) :
    runCons s = { cancel_tasks s with cons := .finished .abandoned } := by
  unfold runCons
  rw [hc]

/-- A consumer waiting on an empty queue stays suspended. -/
theorem runCons_getWait (s : MuxState) (hc : s.cons = .waitingGet)
    (hq : s.queue = none) : runCons s = s := by
  unfold runCons
  rw [hc, hq]

/-- A consumer pulling an error pair tears down and finishes by
re-raising the error. -/
theorem runCons_err (s : MuxState) (e : String) (hc : s.cons = .waitingGet)
    (hq : s.queue = some (true, e)) :
    runCons s
      = { cancel_tasks (wakePutter { s with queue := none }) with
          cons := .finished (.errored e) } := by
  unfold runCons
  rw [hc, hq]
  rfl

/-- A consumer pulling a frame with the drain task settled yields the
frame, exits the loop and tears down. -/
theorem runCons_yield_exit (s : MuxState) (f : String)
    (hc : s.cons = .waitingGet) (hq : s.queue = some (false, f))
    (hd : s.drain.settled = true) :
    runCons s
      = { cancel_tasks
            { wakePutter { s with queue := none } with
              output := (wakePutter { s with queue := none }).output ++ [f] } with
          cons := .finished .normal } := by
  unfold runCons
  rw [hc, hq]
  simp only [wakePutter_drain]
  simp [hd]

/-- A consumer pulling a frame with the drain task still running
yields the frame and waits for the next pair. -/
theorem runCons_yield_continue (s : MuxState) (f : String)
    (hc : s.cons = .waitingGet) (hq : s.queue = some (false, f))
    (hd : s.drain.settled = false) :
    runCons s
      = { wakePutter { s with queue := none } with
          output := (wakePutter { s with queue := none }).output ++ [f] } := by
  unfold runCons
  rw [hc, hq]
  simp only [wakePutter_drain]
  simp [hd]

/-- C3: teardown proceeds in the fixed order — set the cancelling
flag, cancel the drain task and await it, then cancel the heartbeat
task and await it — and leaves the heartbeat task cancelled and the
drain task settled; and every step in which the consumer goes from
alive to finished (normal completion, drain error, or abandonment)
records exactly that teardown sequence and leaves the heartbeat
stopped. -/
theorem multiplexer_teardown_every_exit (s : MuxState) :
    ((cancel_tasks s).trace = s.trace ++ teardownSeq
      ∧ (cancel_tasks s).cancelling = true
      ∧ (cancel_tasks s).hb = .cancelledH
      ∧ (cancel_tasks s).drain.settled = true)
    ∧ (s.cons.isFinished = false → (step s).cons.isFinished = true →
        (step s).trace = s.trace ++ teardownSeq
        ∧ (step s).hb = .cancelledH
        ∧ (step s).drain.settled = true) := by
  obtain ⟨ht, hcg, hhb, hds, hout, hcons, hq⟩ := cancel_tasks_spec s
  refine ⟨⟨ht, hcg, hhb, hds⟩, ?_⟩
  intro halive hfin
  cases hr : s.ready with
  | cons t rest =>
      have hstep : step s = runTask t { s with ready := rest } := by
        unfold step
        rw [hr]
      cases t with
      | drain =>
          exfalso
          rw [hstep] at hfin
          have hc : (runTask TaskId.drain { s with ready := rest }).cons = s.cons := by
            simpa [runTask] using (runDrainTask_preserve { s with ready := rest }).1
          rw [hc, halive] at hfin
          exact Bool.noConfusion hfin
      | hb =>
          exfalso
          rw [hstep] at hfin
          have hc : (runTask TaskId.hb { s with ready := rest }).cons = s.cons := by
            simpa [runTask] using (runHB_preserve { s with ready := rest }).1
          rw [hc, halive] at hfin
          exact Bool.noConfusion hfin
      | cons =>
          rw [hstep] at hfin ⊢
          simp only [runTask] at hfin ⊢
          cases hc : s.cons with
          | finished o =>
              exfalso
              rw [hc] at halive
              exact Bool.noConfusion halive
          | abandoning =>
              rw [runCons_abandoning
                { s with ready := rest, cons := ConsPhase.abandoning } rfl]
              obtain ⟨ht', _, hhb', hds', _, _, _⟩ :=
                cancel_tasks_spec { s with ready := rest, cons := ConsPhase.abandoning }
              refine ⟨?_, ?_, ?_⟩ <;> simp_all [teardownSeq]
          | waitingGet =>
              cases hqv : s.queue with
              | none =>
                  exfalso
                  have hrw := runCons_getWait { s with ready := rest } hc hqv
                  rw [hrw] at hfin
                  simp [halive] at hfin
              | some pair =>
                  obtain ⟨isErr, data⟩ := pair
                  cases isErr with
                  | true =>
                      have hrw := runCons_err { s with ready := rest, cons := ConsPhase.waitingGet, queue := some (true, data) } data rfl rfl
                      rw [hrw]
                      obtain ⟨ht', _, hhb', hds', _, _, _⟩ :=
                        cancel_tasks_spec (wakePutter { s with ready := rest, cons := ConsPhase.waitingGet, queue := none })
                      refine ⟨?_, ?_, ?_⟩ <;> simp_all [teardownSeq]
                  | false =>
                      by_cases hd : s.drain.settled = true
                      · have hrw := runCons_yield_exit { s with ready := rest, cons := ConsPhase.waitingGet, queue := some (false, data) } data rfl rfl hd
                        rw [hrw]
                        obtain ⟨ht', _, hhb', hds', _, _, _⟩ :=
                          cancel_tasks_spec { wakePutter { s with ready := rest, cons := ConsPhase.waitingGet, queue := none } with output := (wakePutter { s with ready := rest, cons := ConsPhase.waitingGet, queue := none }).output ++ [data] }
                        refine ⟨?_, ?_, ?_⟩ <;> simp_all [teardownSeq]
                      · exfalso
                        have hd' : s.drain.settled = false := by
                          simpa using hd
                        have hrw := runCons_yield_continue { s with ready := rest } data hc hqv hd'
                        rw [hrw] at hfin
                        simp [halive] at hfin
  | nil =>
      exfalso
      unfold step at hfin
      rw [hr] at hfin
      cases hmd : minDeadline s with
      | none =>
          simp only [hmd] at hfin
          rw [halive] at hfin
          exact Bool.noConfusion hfin
      | some tMin =>
          simp only [hmd] at hfin
          split_ifs at hfin <;> simp_all [ConsPhase.isFinished]

/-- `wakeCons` does not change the drain phase. -/
@[simp]
theorem wakeCons_drain (s : MuxState) : (wakeCons s).drain = s.drain := by
  unfold wakeCons
  split <;> simp

/-- `wakeCons` does not change the heartbeat phase. -/
@[simp]
theorem wakeCons_hb (s : MuxState) : (wakeCons s).hb = s.hb := by
  unfold wakeCons
  split <;> simp

/-- A finished consumer does nothing when scheduled. -/
theorem runCons_finished (s : MuxState) (o : ConsOutcome)
    (hc : s.cons = .finished o) : runCons s = s := by
  unfold runCons
  rw [hc]

/-- The length of an encoded multipart frame: boundary line, header
and trailing newline around the JSON payload. -/
theorem encode_multipart_data_length (d : Json) :
    (encode_multipart_data d "graphql").data.length
      = 48 + (jsonEncode d).length := by
  have h : (encode_multipart_data d "graphql").data
      = boundaryMarker
          ++ ("\r\nContent-Type: application/json\r\n\r\n".data
            ++ (jsonEncode d ++ ['\n'])) := rfl
  have h1 : boundaryMarker.length = 11 := rfl
  have h2 : ("\r\nContent-Type: application/json\r\n\r\n").data.length = 36 := rfl
  rw [h]
  simp [h1, h2]
  omega

/-- An encoded result frame is never the closing boundary frame: the
two have different lengths. -/
theorem itemFrame_ne_closing (v : Json) :
    itemFrame v ≠ closingFrame "graphql" := by
  intro h
  have hle : (itemFrame v).data.length
      = 48 + (jsonEncode (.obj (.cons "payload" v .nil))).length :=
    encode_multipart_data_length _
  rw [h] at hle
  have hcl : (closingFrame "graphql").data.length = 15 := rfl
  omega

/-- C4: once the source is exhausted without error, the stream ends
with exactly one closing boundary frame after every result frame; a
frame queued before the drain producer completed is still delivered,
after which the consumer exits its loop, and no frame is yielded once
the consumer has finished; the concrete two-item run ends in exactly
one closing frame. -/
theorem multiplexer_terminal_framing :
    (∀ results : List Json,
        streamFrames results "graphql"
          = results.map itemFrame ++ [closingFrame "graphql"]
        ∧ (streamFrames results "graphql").count (closingFrame "graphql") = 1
        ∧ (streamFrames results "graphql").getLast?
            = some (closingFrame "graphql"))
    ∧ (∀ (s : MuxState) (f : String),
        s.cons = .waitingGet → s.queue = some (false, f) →
        s.drain.settled = true →
        (runCons s).output = s.output ++ [f]
        ∧ (runCons s).cons = .finished .normal)
    ∧ (∀ s : MuxState, s.cons.isFinished = true →
        (step s).output = s.output ∧ (step s).cons = s.cons)
    ∧ ((runMux 30 (initMux (timedStream [(1, .str "x"), (2, .str "y")] 2)
          2 .stop none)).output
        = [heartbeatFrame, itemFrame (.str "x"), itemFrame (.str "y"),
           closingFrame "graphql"]
      ∧ (runMux 30 (initMux (timedStream [(1, .str "x"), (2, .str "y")] 2)
            2 .stop none)).output.count (closingFrame "graphql") = 1
      ∧ (runMux 30 (initMux (timedStream [(1, .str "x"), (2, .str "y")] 2)
            2 .stop none)).cons = .finished .normal) := by
  refine ⟨?_, ?_, ?_, by decide, by decide, by decide⟩
  · intro results
    refine ⟨rfl, ?_, ?_⟩
    · rw [streamFrames, List.count_append]
      have hz : (results.map
          (fun v => encode_multipart_data (.obj (.cons "payload" v .nil)) "graphql")).count
            (closingFrame "graphql") = 0 := by
        rw [List.count_eq_zero]
        intro hmem
        obtain ⟨v, _, hv⟩ := List.mem_map.mp hmem
        exact itemFrame_ne_closing v hv
      rw [hz]
      simp
    · rw [streamFrames]
      exact List.getLast?_concat _
  · intro s f hc hq hd
    rw [runCons_yield_exit s f hc hq hd]
    obtain ⟨_, _, _, _, hout', _, _⟩ :=
      cancel_tasks_spec
        { wakePutter { s with queue := none } with
          output := (wakePutter { s with queue := none }).output ++ [f] }
    constructor
    · simp_all
    · simp
  · intro s hfin
    cases hr : s.ready with
    | cons t rest =>
        have hstep : step s = runTask t { s with ready := rest } := by
          unfold step
          rw [hr]
        rw [hstep]
        cases t with
        | drain =>
            have h := runDrainTask_preserve { s with ready := rest }
            exact ⟨by simpa [runTask] using h.2.1, by simpa [runTask] using h.1⟩
        | hb =>
            have h := runHB_preserve { s with ready := rest }
            exact ⟨by simpa [runTask] using h.2.1, by simpa [runTask] using h.1⟩
        | cons =>
            cases hc : s.cons with
            | finished o =>
                simp only [runTask]
                rw [runCons_finished
                  { s with ready := rest, cons := ConsPhase.finished o } o rfl]
                exact ⟨rfl, rfl⟩
            | abandoning => rw [hc] at hfin; simp [ConsPhase.isFinished] at hfin
            | waitingGet => rw [hc] at hfin; simp [ConsPhase.isFinished] at hfin
    | nil =>
        unfold step
        rw [hr]
        cases hmd : minDeadline s with
        | none => exact ⟨rfl, rfl⟩
        | some tMin =>
            have hcd : consDeadline s = none := by
              unfold consDeadline
              cases hcc : s.cons with
              | waitingGet => rw [hcc] at hfin; simp [ConsPhase.isFinished] at hfin
              | abandoning => simp [hcc]
              | finished o => simp [hcc]
            simp [hcd, apply_ite MuxState.output, apply_ite MuxState.cons]

/-- C5: when the drain producer's stream fails, the error is pushed as
a `(true, error)` pair when cancellation was not yet requested (or the
drain blocks to push it when the queue is full), and is re-raised
inside the drain task when cancellation was already requested; the
consumer, pulling a pair whose first component is true, tears down and
finishes by re-raising that error; the concrete failing run delivers
the frames pushed before the failure and ends errored. -/
theorem drain_error_handling :
    (∀ (s : MuxState) (e : String),
        s.drain = .waitStream → s.dYields = [] → s.dFinAt ≤ s.time →
        s.dFin = .fail e → s.cancelling = false →
        (s.queue = none →
            (runDrainTask s).queue = some (true, e)
            ∧ (runDrainTask s).drain = .doneOk)
        ∧ (∀ it : Bool × String, s.queue = some it →
            (runDrainTask s).drain = .putBlocked true e))
    ∧ (∀ (s : MuxState) (e : String),
        s.drain = .waitStream → s.dYields = [] → s.dFinAt ≤ s.time →
        s.dFin = .fail e → s.cancelling = true →
        (runDrainTask s).drain = .raised e
        ∧ (runDrainTask s).queue = s.queue)
    ∧ (∀ (s : MuxState) (e : String),
        s.cons = .waitingGet → s.queue = some (true, e) →
        (runCons s).cons = .finished (.errored e)
        ∧ (runCons s).trace = s.trace ++ teardownSeq
        ∧ (runCons s).output = s.output)
    ∧ ((runMux 30 (initMux [(1, itemFrame (.str "item1"))] 3
          (.fail "boom") none)).output
        = [heartbeatFrame, itemFrame (.str "item1")]
      ∧ (runMux 30 (initMux [(1, itemFrame (.str "item1"))] 3
            (.fail "boom") none)).cons = .finished (.errored "boom")) := by
  refine ⟨?_, ?_, ?_, by decide, by decide⟩
  · intro s e hdr hy hfat hfe hcanc
    have hbase : runDrainTask s = drainConsume [] s := by
      unfold runDrainTask
      rw [hdr, hy]
    constructor
    · intro hqn
      have : runDrainTask s
          = wakeCons { s with queue := some (true, e), drain := .doneOk } := by
        rw [hbase]
        unfold drainConsume
        rw [if_pos hfat, hfe, hcanc, hqn]
        rfl
      rw [this]
      exact ⟨by simp, by simp⟩
    · intro it hqs
      have : runDrainTask s
          = { s with drain := .putBlocked true e,
                     putters := s.putters ++ [.drain] } := by
        rw [hbase]
        unfold drainConsume
        rw [if_pos hfat, hfe, hcanc, hqs]
        rfl
      rw [this]
  · intro s e hdr hy hfat hfe hcanc
    have : runDrainTask s = { s with drain := .raised e } := by
      unfold runDrainTask
      rw [hdr, hy]
      unfold drainConsume
      rw [if_pos hfat, hfe, hcanc]
      simp [hy]
    rw [this]
    exact ⟨rfl, rfl⟩
  · intro s e hc hq
    rw [runCons_err s e hc hq]
    obtain ⟨ht', _, _, _, hout', _, _⟩ :=
      cancel_tasks_spec (wakePutter { s with queue := none })
    refine ⟨by simp, ?_, ?_⟩ <;> simp_all

/-- The C1 scenario's state just before the consumer's final step: the
closing frame is queued, the drain task has completed, and the
consumer is about to be scheduled. -/
def preExitState : MuxState :=
  runMux 16 (initMux scenarioYields 8 .stop none)

/-- Witness for C3 at the concrete finishing step of the C1 scenario's
consumer. -/
theorem multiplexer_teardown_every_exit_witness :
    (step preExitState).trace = preExitState.trace ++ teardownSeq
    ∧ (step preExitState).hb = .cancelledH
    ∧ (step preExitState).drain.settled = true :=
  (multiplexer_teardown_every_exit preExitState).2 (by decide) (by decide)

/-- Witness for C4: the queued closing frame is still delivered after
the drain task completed, and the consumer then finishes. -/
theorem multiplexer_terminal_framing_witness :
    (runCons preExitState).output = preExitState.output ++ [closingFrame "graphql"]
    ∧ (runCons preExitState).cons = .finished .normal :=
  multiplexer_terminal_framing.2.1 preExitState (closingFrame "graphql")
    (by decide) (by decide) (by decide)

/-- A drain task that just observed its stream fail at t=3 with the
queue empty and no cancellation requested. -/
def errPushReady : MuxState :=
  { time := 3
    queue := none
    cancelling := false
    drain := .waitStream
    dYields := []
    dFinAt := 3
    dFin := .fail "boom"
    hb := .sleeping 5
    cons := .waitingGet
    ready := []
    putters := []
    output := []
    trace := []
    abandonAt := none }

/-- The same failing drain with cancellation already requested. -/
def errPushCancelling : MuxState :=
  { errPushReady with cancelling := true }

/-- A consumer about to pull the pushed error pair. -/
def errPopState : MuxState :=
  { errPushReady with queue := some (true, "boom"), drain := .doneOk }

/-- Witness for C5 at concrete failing-drain states. -/
theorem drain_error_handling_witness :
    (runDrainTask errPushReady).queue = some (true, "boom")
    ∧ (runDrainTask errPushCancelling).drain = .raised "boom"
    ∧ (runCons errPopState).cons = .finished (.errored "boom") :=
  ⟨((drain_error_handling.1 errPushReady "boom" rfl rfl (by decide) rfl rfl).1 rfl).1,
   (drain_error_handling.2.1 errPushCancelling "boom" rfl rfl (by decide) rfl rfl).1,
   (drain_error_handling.2.2.1 errPopState "boom" rfl rfl).1⟩

end StrawberryHTTP
